import Mathlib

/-!
Shallow embedding of the command execution and validation core of the
cassandra-ops-mcp repository (src/command_registry.py and
src/nodetool_executor.py), together with theorems settling the frozen
claims about its specification.

Modelling conventions:
* Python dictionary values that flow through validation are modelled by
  `PyVal`: either a string, or any other value reduced to its truthiness
  (Python `if x:`), which is all the embedded code observes about them.
* Argument mappings are association lists with first-match lookup.
* The external process layer (asyncio subprocess) is modelled by a
  `ProcOutcome` parameter describing how the spawned process behaves, and
  the executor's side effects are recorded in an explicit `Effect` list.
* Wall-clock durations are opaque `Rat` parameters threaded through.
* Strings are Lean `String`s; Python `str.split`, `str.strip`, `int` and
  the two `re.match` patterns are translated into structural functions on
  the character list (ASCII reading of `\d`, `re`'s `$` matching before a
  single trailing newline included).
-/

namespace CassandraOps

/-- A Python value as observed by the validation code: either a string, or
any other object reduced to its truthiness. -/
inductive PyVal where
  | str (s : String)
  | other (truthy : Bool)
deriving DecidableEq, Repr

/-- Python truthiness (`if x:`): a string is truthy iff non-empty. -/
def PyVal.truthy : PyVal → Bool
  | .str s => s ≠ ""
  | .other b => b

/-- An argument mapping (`args: Dict[str, Any]`), as an association list. -/
abbrev Args := List (String × PyVal)

/-- `args.get(k)` / `k in args` combined: first-match lookup. -/
def Args.get (args : Args) (k : String) : Option PyVal :=
  match args.find? (fun p => p.1 == k) with
  | some p => some p.2
  | none => none

/-- Metadata of one catalog entry.  In the Python source this is a free-form
dict read back with `.get` and defaults; the structure's defaults mirror
those `.get` defaults (`safe` defaults to `False`, `requires_args` to
`False`, `required_args` to `[]`). -/
structure CommandMeta where
  description : String := ""
  category : String := ""
  requires_args : Bool := false
  required_args : List String := []
  optional_args : List String := []
  safe : Bool := false
deriving DecidableEq, Repr

/-- The registry's `_commands` dict: insertion-ordered association list. -/
abbrev Catalog := List (String × CommandMeta)

/-- Python dict assignment `d[name] = m`: replace in place if the key
exists, else append. -/
def catInsert (cat : Catalog) (name : String) (m : CommandMeta) : Catalog :=
  if cat.any (fun p => p.1 == name) then
    cat.map (fun p => if p.1 == name then (name, m) else p)
  else
    cat ++ [(name, m)]

/-- Dict lookup `d.get(name)`. -/
def lookupCmd (cat : Catalog) (name : String) : Option CommandMeta :=
  match cat.find? (fun p => p.1 == name) with
  | some p => some p.2
  | none => none

namespace CommandRegistry

/-- `CommandRegistry.SAFE_COMMANDS` (a Python set; only membership is used). -/
def SAFE_COMMANDS : List String :=
  ["status", "ring", "info", "netstats",
   "repair", "snapshot", "cleanup", "compact",
   "getsstables", "getcompactionthroughput", "getconcurrentcompactors"]

/-- `_register_monitoring_commands`. -/
def register_monitoring_commands (c : Catalog) : Catalog :=
  catInsert (catInsert (catInsert (catInsert c
    "status" { description := "Get cluster status and node information",
               category := "monitoring", requires_args := false, safe := true })
    "ring" { description := "Get token ring information",
             category := "monitoring", requires_args := false, safe := true })
    "info" { description := "Get node information",
             category := "monitoring", requires_args := false, safe := true })
    "netstats" { description := "Get network statistics",
                 category := "monitoring", requires_args := false, safe := true }

/-- `_register_maintenance_commands`. -/
def register_maintenance_commands (c : Catalog) : Catalog :=
  catInsert (catInsert (catInsert (catInsert c
    "repair" { description := "Repair one or more tables",
               category := "maintenance", requires_args := false, safe := true,
               optional_args := ["keyspace", "table"] })
    "snapshot" { description := "Take a snapshot of specified keyspaces",
                 category := "maintenance", requires_args := false, safe := true,
                 optional_args := ["tag", "keyspace"] })
    "cleanup" { description := "Cleanup keys no longer belonging to a node",
                category := "maintenance", requires_args := false, safe := true,
                optional_args := ["keyspace", "table"] })
    "compact" { description := "Force a major compaction",
                category := "maintenance", requires_args := false, safe := true,
                optional_args := ["keyspace", "table"] }

/-- `_register_extended_commands`. -/
def register_extended_commands (c : Catalog) : Catalog :=
  catInsert (catInsert (catInsert c
    "getsstables" { description := "Get SSTables for a given key",
                    category := "extended", requires_args := true, safe := true,
                    required_args := ["keyspace", "table", "key"] })
    "getcompactionthroughput" { description := "Get compaction throughput in MB/s",
                                category := "extended", requires_args := false,
                                safe := true })
    "getconcurrentcompactors" { description := "Get number of concurrent compactors",
                                category := "extended", requires_args := false,
                                safe := true }

/-- `_initialize_commands` applied to the empty dict: the catalog as built by
`__init__`. -/
def initial_commands : Catalog :=
  register_extended_commands (register_maintenance_commands
    (register_monitoring_commands []))

/-- `CommandRegistry.validate_command`. -/
def validate_command (cat : Catalog) (name : String) (args : Args) : Bool :=
  match lookupCmd cat name with
  | none => false
  | some m =>
    if !m.safe then false
    else if m.requires_args &&
        !(m.required_args.all fun a =>
          match Args.get args a with
          | some v => v.truthy
          | none => false) then false
    else
      match Args.get args "target_host" with
      | some v =>
        if v.truthy then
          match v with
          | PyVal.str _ => true
          | PyVal.other _ => false
        else true
      | none => true

/-- The `handler` parameter of `register_command`: a Python value that is
either a dict holding command metadata, or anything else. -/
inductive Handler where
  | dict (m : CommandMeta)
  | nonDict
deriving DecidableEq, Repr

/-- `CommandRegistry.register_command`; `raise ValueError` becomes
`Except.error`. -/
def register_command (cat : Catalog) (name : String) (handler : Handler) :
    Except String Catalog :=
  match handler with
  | .nonDict => .error "Handler must be a dictionary with command metadata"
  | .dict m =>
    if name ∈ SAFE_COMMANDS then
      .ok (catInsert cat name m)
    else
      .error ("Command " ++ "'" ++ name ++ "'" ++ " is not in the safe commands list")

end CommandRegistry

/-! ### Python string primitives, as structural functions on character lists -/

/-- Split a character list at every character satisfying `p`, keeping empty
pieces. -/
def splitPred (p : Char → Bool) : List Char → List (List Char)
  | [] => [[]]
  | c :: rest =>
    let r := splitPred p rest
    if p c then [] :: r
    else
      match r with
      | g :: gs => (c :: g) :: gs
      | [] => [[c]]

/-- Split a character list at every occurrence of `sep`, keeping empty
pieces: Python `s.split(sep)` for a one-character separator. -/
def splitCh (sep : Char) : List Char → List (List Char) :=
  splitPred (fun c => c = sep)

/-- Python `s.split(sep)` on strings (one-character separator). -/
def pySplitChar (sep : Char) (s : String) : List String :=
  (splitCh sep s.toList).map (fun g => String.mk g)

/-- Python `s.split()` with no separator: splitting at every whitespace
character and dropping the empty pieces splits exactly on whitespace runs. -/
def pySplitWs (s : String) : List String :=
  ((splitPred Char.isWhitespace s.toList).filter (fun g => g ≠ [])).map
    (fun g => String.mk g)

/-- Python `s.strip()`: drop leading and trailing whitespace. -/
def pyStrip (s : String) : String :=
  String.mk
    (((s.toList.dropWhile Char.isWhitespace).reverse.dropWhile
      Char.isWhitespace).reverse)

/-- Python `s.startswith(p)`. -/
def beginsWith : List Char → List Char → Bool
  | [], _ => true
  | _ :: _, [] => false
  | p :: ps, c :: cs => p = c && beginsWith ps cs

def pyBeginsWith (p s : String) : Bool :=
  beginsWith p.toList s.toList

/-- Python `int(s)` on a string of ASCII decimal digits. -/
def decVal (cs : List Char) : Nat :=
  cs.foldl (fun a c => a * 10 + (c.toNat - '0'.toNat)) 0

/-- ASCII hexadecimal digit (the character class `[0-9a-fA-F]`). -/
def isHexDigitChar (c : Char) : Bool :=
  (decide ('0' ≤ c) && decide (c ≤ '9')) ||
  (decide ('a' ≤ c) && decide (c ≤ 'f')) ||
  (decide ('A' ≤ c) && decide (c ≤ 'F'))

/-- In Python `re`, the `$` anchor also matches just before one trailing
newline; so `re.match(r'^P$', s)` matches iff the core pattern matches `s`
with at most one trailing newline removed. -/
def reStripNl (s : String) : String :=
  match s.toList.getLast? with
  | some c => if c = '\n' then String.mk s.toList.dropLast else s
  | none => s

namespace NodeToolExecutor

/-- The regex `^(\d{1,3}\.){3}\d{1,3}$` stripped of anchors: exactly four
dot-separated groups of one to three ASCII decimal digits. -/
def ipv4Shape (s : String) : Bool :=
  let parts := splitCh '.' s.toList
  decide (parts.length = 4) &&
    parts.all (fun p =>
      decide (1 ≤ p.length) && decide (p.length ≤ 3) && p.all Char.isDigit)

/-- The regex `^([0-9a-fA-F]{0,4}:){2,7}[0-9a-fA-F]{0,4}$` stripped of
anchors: 3 to 8 colon-separated groups (2 to 7 colons) of 0 to 4 hex
digits. -/
def ipv6Shape (s : String) : Bool :=
  let parts := splitCh ':' s.toList
  decide (3 ≤ parts.length) && decide (parts.length ≤ 8) &&
    parts.all (fun p => decide (p.length ≤ 4) && p.all isHexDigitChar)

/-- `NodeToolExecutor._validate_ip_format`.  The octet range check runs on
the dot-split of the original string in the source; since `int` ignores the
surrounding whitespace that `$` may have skipped, checking the
newline-stripped string is equivalent. -/
def validate_ip_format (ip : String) : Bool :=
  let core := reStripNl ip
  if ipv4Shape core then
    (splitCh '.' core.toList).all (fun octet => decide (decVal octet ≤ 255))
  else if ipv6Shape core then true
  else false

end NodeToolExecutor

/-! ### The execution result and the process layer model -/

/-- `CommandResult` (src/models.py dataclass).  The wall-clock `timestamp`
field is omitted (opaque to every claim); `execution_time` is an opaque
duration.  `target_host` holds whatever Python value was handed over. -/
structure CommandResult where
  success : Bool
  command : String
  stdout : String
  stderr : String
  execution_time : Rat
  target_host : Option PyVal
deriving DecidableEq, Repr

/-- How the spawned external process behaves: normal completion with an
exit code and captured output, exceeding the timeout, spawn failure
(`FileNotFoundError`), or any other fault (`except Exception`). -/
inductive ProcOutcome where
  | completed (exitCode : Int) (stdout stderr : String)
  | timedOut
  | spawnNotFound (msg : String)
  | unexpected (msg : String)
deriving DecidableEq, Repr

/-- Observable side effects of one executor call on the process layer. -/
inductive Effect where
  | spawned (argv : List String)
  | killedProcess
  | waitedTeardown
deriving DecidableEq, Repr

/-- The executor's configuration: `config_manager.get_cassandra_bin_path()`
and the constructor's `timeout` parameter, whose Python default is `300`. -/
structure ExecutorConfig where
  cassandra_bin_path : String
  timeout : Nat := 300
deriving DecidableEq, Repr

/-- `str(Path(dir) / "nodetool")`: path join. -/
def pathJoin (dir file : String) : String :=
  if dir = "" then file
  else if dir.toList.getLast? = some '/' then dir ++ file
  else dir ++ "/" ++ file

/-- Python truthiness of the executor's `Optional[str]` target host. -/
def hostTruthy : Option String → Bool
  | some h => h ≠ ""
  | none => false

namespace NodeToolExecutor

/-- `NodeToolExecutor.build_command`. -/
def build_command (cfg : ExecutorConfig) (base_command : String)
    (args : List String) (host : Option String) : List String :=
  let nodetool_path := pathJoin cfg.cassandra_bin_path "nodetool"
  ([nodetool_path] ++
    (if hostTruthy host then ["-h", host.getD ""] else []) ++
    [base_command]) ++ args

/-- The guard on lines 50-51 of the source: a truthy target host whose IP
format check fails makes `execute_command` return early. -/
def hostRejected (target_host : Option String) : Bool :=
  hostTruthy target_host && !(validate_ip_format (target_host.getD ""))

/-- `NodeToolExecutor.execute_command`.  The behaviour of the spawned
process is the `outcome` parameter; the elapsed wall-clock time at result
construction is the `elapsed` parameter.  Returns the result together with
the effects exerted on the process layer. -/
def execute_command (cfg : ExecutorConfig) (command : String)
    (target_host : Option String) (outcome : ProcOutcome) (elapsed : Rat) :
    CommandResult × List Effect :=
  let th : Option PyVal := target_host.map PyVal.str
  if hostRejected target_host then
    (⟨false, command, "", "Invalid IP format: " ++ target_host.getD "",
      elapsed, th⟩, [])
  else
    let cmd_parts := build_command cfg command [] target_host
    match outcome with
    | .completed code out err =>
      (⟨code == 0, command, out, err, elapsed, th⟩, [.spawned cmd_parts])
    | .timedOut =>
      (⟨false, command, "",
        "Command timed out after " ++ toString cfg.timeout ++ " seconds",
        elapsed, th⟩,
       [.spawned cmd_parts, .killedProcess, .waitedTeardown])
    | .spawnNotFound msg =>
      (⟨false, command, "", "nodetool executable not found: " ++ msg,
        elapsed, th⟩, [])
    | .unexpected msg =>
      (⟨false, command, "", "Unexpected error executing command: " ++ msg,
        elapsed, th⟩, [.spawned cmd_parts])

end NodeToolExecutor

namespace CommandRegistry

/-- The registry hands `args.get("target_host")` to the executor, whose
parameter is typed `Optional[str]`.  After successful validation the value
is absent, a string, or falsy; a falsy non-string behaves identically to an
absent host on every path, so it is mapped to `none`. -/
def toHostStr : Option PyVal → Option String
  | some (PyVal.str s) => some s
  | _ => none

/-- `CommandRegistry.execute_command`: validation short-circuit, then
delegation to the executor.  The middle component records whether the
executor was invoked at all. -/
def execute_command (cfg : ExecutorConfig) (cat : Catalog) (name : String)
    (args : Args) (outcome : ProcOutcome) (elapsed : Rat) :
    CommandResult × Bool × List Effect :=
  if !(validate_command cat name args) then
    (⟨false, name, "",
      "Command validation failed for " ++ "'" ++ name ++ "'", 0,
      Args.get args "target_host"⟩, false, [])
  else
    let target_host := toHostStr (Args.get args "target_host")
    let r := NodeToolExecutor.execute_command cfg name target_host outcome elapsed
    (r.1, true, r.2)

end CommandRegistry

/-! ### The `nodetool status` output parser -/

/-- One parsed node row of `_parse_status_output`. -/
structure StatusNode where
  status : Char
  state : String
  address : String
  load : String
  tokens : String
  owns : String
  host_id : String
  rack : String
  datacenter : Option String
deriving DecidableEq, Repr

/-- The parser's return dict. -/
structure StatusParse where
  nodes : List StatusNode
  total_nodes : Nat
deriving DecidableEq, Repr

namespace NodeToolExecutor

/-- The body of the `for line in lines` loop of `_parse_status_output`,
acting on the state (current datacenter, nodes so far). -/
def statusStep (st : Option String × List StatusNode) (rawLine : String) :
    Option String × List StatusNode :=
  let line := pyStrip rawLine
  if pyBeginsWith "Datacenter:" line then
    (some (pyStrip (String.mk (line.toList.drop 11))), st.2)
  else
    match line.toList with
    | [] => st
    | c :: _ =>
      if c ∈ ['U', 'D', 'N'] then
        let parts := pySplitWs line
        if 6 ≤ parts.length then
          let p0 := (parts.headD "").toList
          let node : StatusNode :=
            { status := p0.headD 'A',
              state := match p0 with
                       | _ :: c2 :: _ => String.mk [c2]
                       | _ => "",
              address := parts.getD 1 "",
              load := parts.getD 2 "",
              tokens := parts.getD 3 "",
              owns := if 4 < parts.length then parts.getD 4 "" else "",
              host_id := if 5 < parts.length then parts.getD 5 "" else "",
              rack := if 6 < parts.length then parts.getD 6 "" else "",
              datacenter := st.1 }
          (st.1, st.2 ++ [node])
        else st
      else st

/-- `NodeToolExecutor._parse_status_output`. -/
def parse_status_output (output : String) : StatusParse :=
  let lines := pySplitChar '\n' (pyStrip output)
  let res := lines.foldl statusStep (none, [])
  ⟨res.2, res.2.length⟩

end NodeToolExecutor

/-! ### Auxiliary definitions used only to state claims -/

/-- A concrete executor configuration used to instantiate theorems. -/
def cfg0 : ExecutorConfig := { cassandra_bin_path := "/opt/cassandra/bin" }

/-- `True` exactly on `Except.error`: the caller of `register_command` is
notified of the failure by the raised `ValueError`. -/
def raisedError : Except String Catalog → Bool
  | .error _ => true
  | .ok _ => false

/-- The spec's reading of an IPv4 literal: exactly four dot-separated
decimal groups of 1-3 digits, each with integer value in `[0, 255]`. -/
def claimIPv4Literal (s : String) : Bool :=
  let parts := splitCh '.' s.toList
  decide (parts.length = 4) &&
    parts.all (fun p =>
      decide (1 ≤ p.length) && decide (p.length ≤ 3) && p.all Char.isDigit &&
      decide (decVal p ≤ 255))

/-- The spec's reading of a permissive IPv6 literal with `lo` to `hi`
colon-separated groups of 0-4 hex digits. -/
def claimIPv6Permissive (lo hi : Nat) (s : String) : Bool :=
  let parts := splitCh ':' s.toList
  decide (lo ≤ parts.length) && decide (parts.length ≤ hi) &&
    parts.all (fun p => decide (p.length ≤ 4) && p.all isHexDigitChar)

/-- One public operation on the registry (the claims quantify over
sequences of these). -/
inductive RegistryOp where
  | validateOp (name : String) (args : Args)
  | dispatchOp (cfg : ExecutorConfig) (name : String) (args : Args)
      (outcome : ProcOutcome) (elapsed : Rat)
  | listOp
  | registerOp (name : String) (handler : CommandRegistry.Handler)

/-- Whether an operation is a registration. -/
def RegistryOp.isRegister : RegistryOp → Bool
  | .registerOp _ _ => true
  | _ => false

/-- Effect of one public operation on the `_commands` dict:
`validate_command`, `execute_command` and `get_available_commands` only
read it; `register_command` assigns on success and leaves it untouched
when it raises. -/
def applyOp (cat : Catalog) : RegistryOp → Catalog
  | .validateOp _ _ => cat
  | .dispatchOp _ _ _ _ _ => cat
  | .listOp => cat
  | .registerOp name handler =>
    match CommandRegistry.register_command cat name handler with
    | .ok c' => c'
    | .error _ => cat

/-- Effect of a sequence of public operations on the catalog. -/
def applyOps (cat : Catalog) (ops : List RegistryOp) : Catalog :=
  ops.foldl applyOp cat

/-! ### Claim theorems -/

/-- C1 counterexample: the stderr of a validation failure does not explain
which validation step failed.  Two `getsstables` dispatches fail at
different steps — the first misses the required argument `keyspace`
(step 3), the second supplies all three required arguments with truthy
values but binds `target_host` to a truthy non-string (step 4) — yet both
return the identical stderr string. -/
theorem c1_counterexample :
    CommandRegistry.validate_command CommandRegistry.initial_commands
      "getsstables" [] = false ∧
    CommandRegistry.validate_command CommandRegistry.initial_commands
      "getsstables"
      [("keyspace", PyVal.str "ks"), ("table", PyVal.str "t"),
       ("key", PyVal.str "k"), ("target_host", PyVal.other true)] = false ∧
    Args.get [] "keyspace" = none ∧
    Args.get [("keyspace", PyVal.str "ks"), ("table", PyVal.str "t"),
      ("key", PyVal.str "k"), ("target_host", PyVal.other true)] "keyspace" =
      some (PyVal.str "ks") ∧
    Args.get [("keyspace", PyVal.str "ks"), ("table", PyVal.str "t"),
      ("key", PyVal.str "k"), ("target_host", PyVal.other true)] "table" =
      some (PyVal.str "t") ∧
    Args.get [("keyspace", PyVal.str "ks"), ("table", PyVal.str "t"),
      ("key", PyVal.str "k"), ("target_host", PyVal.other true)] "key" =
      some (PyVal.str "k") ∧
    Args.get [("keyspace", PyVal.str "ks"), ("table", PyVal.str "t"),
      ("key", PyVal.str "k"), ("target_host", PyVal.other true)] "target_host" =
      some (PyVal.other true) ∧
    (PyVal.other true).truthy = true ∧
    (CommandRegistry.execute_command cfg0 CommandRegistry.initial_commands
        "getsstables" [] (ProcOutcome.completed 0 "" "") 0).1.stderr =
      (CommandRegistry.execute_command cfg0 CommandRegistry.initial_commands
        "getsstables"
        [("keyspace", PyVal.str "ks"), ("table", PyVal.str "t"),
         ("key", PyVal.str "k"), ("target_host", PyVal.other true)]
        (ProcOutcome.completed 0 "" "") 0).1.stderr := by
  decide

/-- C1 amended: whenever validation fails — in particular for every name
not in the catalog — `execute_command` returns a result with
`success = false`, empty stdout, stderr equal to the constant message
`"Command validation failed for '<name>'"` (which states that validation
failed for that command but not which validation step failed; the step is
only logged), `execution_time = 0`, and the executor is never invoked (no
process-layer effect occurs). -/
theorem c1_validation_failure_short_circuits (cfg : ExecutorConfig)
    (cat : Catalog) (name : String) (args : Args) (outcome : ProcOutcome)
    (elapsed : Rat) :
    (lookupCmd cat name = none →
      CommandRegistry.validate_command cat name args = false) ∧
    (CommandRegistry.validate_command cat name args = false →
      CommandRegistry.execute_command cfg cat name args outcome elapsed =
        (⟨false, name, "",
          "Command validation failed for " ++ "'" ++ name ++ "'", 0,
          Args.get args "target_host"⟩, false, [])) := by
  constructor
  · intro h
    unfold CommandRegistry.validate_command
    rw [h]
  · intro h
    unfold CommandRegistry.execute_command
    rw [h]
    simp

/-- Witness for C1 at the unknown command `droptable` with empty args. -/
theorem c1_witness :
    CommandRegistry.execute_command cfg0 CommandRegistry.initial_commands
        "droptable" [] (ProcOutcome.completed 0 "" "") 0 =
      (⟨false, "droptable", "",
        "Command validation failed for " ++ "'" ++ "droptable" ++ "'", 0,
        none⟩, false, []) :=
  (c1_validation_failure_short_circuits cfg0 CommandRegistry.initial_commands
    "droptable" [] (ProcOutcome.completed 0 "" "") 0).2 (by decide)

/-- C4: when the process does not complete within the configured timeout,
the executor kills it, waits for teardown, and returns `success = false`
with stderr `"Command timed out after <N> seconds"` for the configured
timeout `N`; the constructor's default timeout is 300 seconds. -/
theorem c4_timeout_result (cfg : ExecutorConfig) (command : String)
    (target_host : Option String) (elapsed : Rat)
    (h : NodeToolExecutor.hostRejected target_host = false) :
    NodeToolExecutor.execute_command cfg command target_host
        ProcOutcome.timedOut elapsed =
      (⟨false, command, "",
        "Command timed out after " ++ toString cfg.timeout ++ " seconds",
        elapsed, target_host.map PyVal.str⟩,
       [Effect.spawned (NodeToolExecutor.build_command cfg command [] target_host),
        Effect.killedProcess, Effect.waitedTeardown]) ∧
    (∀ bin : String,
      ({ cassandra_bin_path := bin } : ExecutorConfig).timeout = 300) := by
  refine ⟨?_, fun _ => rfl⟩
  unfold NodeToolExecutor.execute_command
  rw [h]
  simp

/-- Witness for C4: timeout of a local `status` execution. -/
theorem c4_witness :
    NodeToolExecutor.execute_command cfg0 "status" none ProcOutcome.timedOut 5 =
      (⟨false, "status", "", "Command timed out after " ++ toString cfg0.timeout ++ " seconds",
        5, none⟩,
       [Effect.spawned (NodeToolExecutor.build_command cfg0 "status" [] none),
        Effect.killedProcess, Effect.waitedTeardown]) :=
  (c4_timeout_result cfg0 "status" none 5 (by decide)).1

/-- C8: registering any name outside `SAFE_COMMANDS` raises (the caller is
notified by a `ValueError`) and never yields an updated catalog, so such a
command cannot become dispatchable through registration. -/
theorem c8_register_rejects_non_allowlisted (cat : Catalog) (name : String)
    (handler : CommandRegistry.Handler)
    (h : name ∉ CommandRegistry.SAFE_COMMANDS) :
    raisedError (CommandRegistry.register_command cat name handler) = true ∧
    (∀ c', CommandRegistry.register_command cat name handler ≠ Except.ok c') := by
  cases handler with
  | nonDict => exact ⟨rfl, fun c' hc => by simp [CommandRegistry.register_command] at hc⟩
  | dict m =>
    simp only [CommandRegistry.register_command]
    rw [if_neg h]
    exact ⟨rfl, fun c' hc => by simp at hc⟩

/-- `validate_command` returns true exactly when the name is in the
catalog, its entry is safe, all required arguments are present and truthy,
and a present truthy `target_host` is a string. -/
theorem validate_command_true_iff (cat : Catalog) (name : String) (args : Args) :
    CommandRegistry.validate_command cat name args = true ↔
      ∃ m, lookupCmd cat name = some m ∧ m.safe = true ∧
        (m.requires_args = true →
          ∀ a ∈ m.required_args, ∃ v, Args.get args a = some v ∧ v.truthy = true) ∧
        (∀ v, Args.get args "target_host" = some v → v.truthy = true →
          ∃ s, v = PyVal.str s) := by
  cases hm : lookupCmd cat name with
  | none => simp [CommandRegistry.validate_command, hm]
  | some m =>
    simp only [CommandRegistry.validate_command, hm]
    cases hs : m.safe with
    | false => simp [hs]
    | true =>
      simp only [hs, Bool.not_true, if_false, Option.some.injEq, exists_eq_left',
        true_and, Bool.false_eq_true]
      cases hrt : (m.requires_args &&
          !m.required_args.all fun a =>
            match Args.get args a with
            | some v => v.truthy
            | none => false) with
      | true =>
        simp only [eq_self_iff_true, if_true, Bool.false_eq_true, false_iff]
        rw [Bool.and_eq_true] at hrt
        obtain ⟨hq, hall⟩ := hrt
        rw [Bool.not_eq_eq_eq_not, Bool.not_true] at hall
        rintro ⟨hreq, -⟩
        have hv' := hreq hq
        rw [List.all_eq_false] at hall
        obtain ⟨a, ha, hfa⟩ := hall
        obtain ⟨v, hv, ht⟩ := hv' a ha
        rw [hv] at hfa
        simp only [ht] at hfa
        exact hfa trivial
      | false =>
        simp only [hrt, Bool.false_eq_true, if_false]
        have hreq : m.requires_args = true →
            ∀ a ∈ m.required_args, ∃ v, Args.get args a = some v ∧ v.truthy = true := by
          intro hq a ha
          rw [Bool.and_eq_false_iff] at hrt
          rcases hrt with h | h
          · rw [hq] at h; cases h
          · rw [Bool.not_eq_false'] at h
            rw [List.all_eq_true] at h
            have hfa := h a ha
            cases hg : Args.get args a with
            | none => rw [hg] at hfa; cases hfa
            | some v => rw [hg] at hfa; exact ⟨v, rfl, hfa⟩
        constructor
        · intro h
          refine ⟨hreq, ?_⟩
          intro v hv ht
          rw [hv] at h
          simp only [ht, if_true] at h
          cases v with
          | str s => exact ⟨s, rfl⟩
          | other b => simp at h
        · rintro ⟨-, hhost⟩
          cases hg : Args.get args "target_host" with
          | none => rfl
          | some v =>
            cases htv : v.truthy with
            | false => simp [htv]
            | true =>
              obtain ⟨s, rfl⟩ := hhost v hg htv
              simp

/-- C2: `validate_command` is true iff the name is catalogued, the entry
is safe, every required argument is present with a non-empty (truthy)
value, and a present non-empty `target_host` is a string; in particular a
missing or empty required argument of `getsstables` makes it false. -/
theorem c2_validate_characterization (cat : Catalog) (name : String) (args : Args) :
    (CommandRegistry.validate_command cat name args = true ↔
      ∃ m, lookupCmd cat name = some m ∧ m.safe = true ∧
        (m.requires_args = true →
          ∀ a ∈ m.required_args, ∃ v, Args.get args a = some v ∧ v.truthy = true) ∧
        (∀ v, Args.get args "target_host" = some v → v.truthy = true →
          ∃ s, v = PyVal.str s)) ∧
    (∀ a ∈ (["keyspace", "table", "key"] : List String),
      (Args.get args a = none ∨ Args.get args a = some (PyVal.str "")) →
      CommandRegistry.validate_command CommandRegistry.initial_commands
        "getsstables" args = false) := by
  refine ⟨validate_command_true_iff cat name args, ?_⟩
  intro a ha hmiss
  by_contra hv
  rw [Bool.not_eq_false, validate_command_true_iff] at hv
  obtain ⟨m, hm, -, hreq, -⟩ := hv
  have hmg : lookupCmd CommandRegistry.initial_commands "getsstables" =
      some { description := "Get SSTables for a given key", category := "extended",
             requires_args := true, safe := true,
             required_args := ["keyspace", "table", "key"] } := by rfl
  rw [hmg, Option.some.injEq] at hm
  subst hm
  obtain ⟨v, hv', ht⟩ := hreq rfl a ha
  rcases hmiss with h | h
  · rw [h] at hv'; cases hv'
  · rw [h, Option.some.injEq] at hv'
    subst hv'
    simp [PyVal.truthy] at ht

/-- Witness for C2: `getsstables` with only `keyspace` fails validation. -/
theorem c2_witness :
    CommandRegistry.validate_command CommandRegistry.initial_commands
      "getsstables" [("keyspace", PyVal.str "ks")] = false :=
  (c2_validate_characterization CommandRegistry.initial_commands "getsstables"
    [("keyspace", PyVal.str "ks")]).2 "table" (by decide) (Or.inl (by decide))

/-- C6: the spawned argument vector is exactly the binary path, then
`-h <host>` when a target host is given, then the command name; no other
validated argument value is ever appended. -/
theorem c6_spawned_argv (cfg : ExecutorConfig) (command : String)
    (host : Option String) (outcome : ProcOutcome) (elapsed : Rat) :
    NodeToolExecutor.build_command cfg command [] host =
      [pathJoin cfg.cassandra_bin_path "nodetool"] ++
        (if hostTruthy host then ["-h", host.getD ""] else []) ++ [command] ∧
    (∀ argv, Effect.spawned argv ∈
        (NodeToolExecutor.execute_command cfg command host outcome elapsed).2 →
      argv = [pathJoin cfg.cassandra_bin_path "nodetool"] ++
        (if hostTruthy host then ["-h", host.getD ""] else []) ++ [command]) := by
  have hb : NodeToolExecutor.build_command cfg command [] host =
      [pathJoin cfg.cassandra_bin_path "nodetool"] ++
        (if hostTruthy host then ["-h", host.getD ""] else []) ++ [command] := by
    unfold NodeToolExecutor.build_command
    simp
  refine ⟨hb, ?_⟩
  intro argv hmem
  rw [← hb]
  cases hR : NodeToolExecutor.hostRejected host <;>
    cases outcome <;>
      simp [NodeToolExecutor.execute_command, hR] at hmem <;>
        simp [hmem]

/-- Witness for C6: concrete argument vector for `status` on 10.0.0.5. -/
theorem c6_witness :
    NodeToolExecutor.build_command cfg0 "status" [] (some "10.0.0.5") =
      [pathJoin cfg0.cassandra_bin_path "nodetool"] ++
        (if hostTruthy (some "10.0.0.5") then ["-h", (some "10.0.0.5").getD ""] else []) ++
        ["status"] :=
  (c6_spawned_argv cfg0 "status" (some "10.0.0.5")
    (ProcOutcome.completed 0 "" "") 0).1

/-- C3: the result's `success` is true iff the process exited with code 0
and no invalid-host, timeout, or spawn error occurred; on every failure
path the result carries the corresponding descriptive stderr (the process
stderr itself on a non-zero exit).  The embedding is a total function, so
no exception crosses the public boundary. -/
theorem c3_success_iff_clean_exit (cfg : ExecutorConfig) (command : String)
    (target_host : Option String) (outcome : ProcOutcome) (elapsed : Rat) :
    ((NodeToolExecutor.execute_command cfg command target_host outcome
        elapsed).1.success = true ↔
      (NodeToolExecutor.hostRejected target_host = false ∧
        ∃ out err, outcome = ProcOutcome.completed 0 out err)) ∧
    (NodeToolExecutor.hostRejected target_host = true →
      (NodeToolExecutor.execute_command cfg command target_host outcome
        elapsed).1.stderr = "Invalid IP format: " ++ target_host.getD "") ∧
    (NodeToolExecutor.hostRejected target_host = false →
      (outcome = ProcOutcome.timedOut →
        (NodeToolExecutor.execute_command cfg command target_host outcome
          elapsed).1.stderr =
          "Command timed out after " ++ toString cfg.timeout ++ " seconds") ∧
      (∀ msg, outcome = ProcOutcome.spawnNotFound msg →
        (NodeToolExecutor.execute_command cfg command target_host outcome
          elapsed).1.stderr = "nodetool executable not found: " ++ msg) ∧
      (∀ msg, outcome = ProcOutcome.unexpected msg →
        (NodeToolExecutor.execute_command cfg command target_host outcome
          elapsed).1.stderr = "Unexpected error executing command: " ++ msg) ∧
      (∀ code out err, outcome = ProcOutcome.completed code out err →
        (NodeToolExecutor.execute_command cfg command target_host outcome
          elapsed).1.stdout = out ∧
        (NodeToolExecutor.execute_command cfg command target_host outcome
          elapsed).1.stderr = err)) := by
  cases hR : NodeToolExecutor.hostRejected target_host <;>
    cases outcome <;>
      simp [NodeToolExecutor.execute_command, hR]

/-- Witness for C3: clean exit yields success, non-zero exit does not. -/
theorem c3_witness :
    (NodeToolExecutor.execute_command cfg0 "status" none
      (ProcOutcome.completed 0 "up" "") 1).1.success = true :=
  ((c3_success_iff_clean_exit cfg0 "status" none
    (ProcOutcome.completed 0 "up" "") 1).1).2
    ⟨by decide, "up", "", rfl⟩

theorem list_all_and {α : Type} (f g : α → Bool) (l : List α) :
    (l.all fun x => f x && g x) = (l.all f && l.all g) := by
  induction l with
  | nil => rfl
  | cons x xs ih =>
    simp only [List.all_cons, ih]
    cases f x <;> cases g x <;> simp

theorem splitPred_ne_nil (p : Char → Bool) (cs : List Char) :
    splitPred p cs ≠ [] := by
  induction cs with
  | nil => simp [splitPred]
  | cons c rest ih =>
    simp only [splitPred]
    split
    · simp
    · split
      · simp_all
      · simp

theorem splitPred_of_no_sep (p : Char → Bool) (cs : List Char)
    (h : ∀ c ∈ cs, p c = false) : splitPred p cs = [cs] := by
  induction cs with
  | nil => rfl
  | cons c rest ih =>
    have hrest := ih (fun d hd => h d (List.mem_cons_of_mem c hd))
    simp only [splitPred, h c (List.mem_cons_self c rest), Bool.false_eq_true,
      if_false, hrest]

theorem mem_splitPred (p : Char → Bool) (cs : List Char) (c : Char)
    (hc : c ∈ cs) (hp : p c = false) :
    ∃ g ∈ splitPred p cs, c ∈ g := by
  induction cs with
  | nil => cases hc
  | cons d rest ih =>
    rw [List.mem_cons] at hc
    cases hpd : p d with
    | true =>
      rcases hc with rfl | hc
      · rw [hp] at hpd; cases hpd
      · obtain ⟨g, hg, hcg⟩ := ih hc
        exact ⟨g, by simp [splitPred, hpd, hg], hcg⟩
    | false =>
      cases hr : splitPred p rest with
      | nil => exact absurd hr (splitPred_ne_nil p rest)
      | cons g0 gs =>
        have hres : splitPred p (d :: rest) = (d :: g0) :: gs := by
          simp [splitPred, hpd, hr]
        rcases hc with rfl | hc
        · exact ⟨c :: g0, by simp [hres], List.mem_cons_self c g0⟩
        · obtain ⟨g, hg, hcg⟩ := ih hc
          rw [hr, List.mem_cons] at hg
          rcases hg with rfl | hg
          · exact ⟨d :: g, by simp [hres], List.mem_cons_of_mem d hcg⟩
          · exact ⟨g, by simp [hres, hg], hcg⟩

theorem exists_sep_of_splitPred_length (p : Char → Bool) (cs : List Char)
    (h : (splitPred p cs).length ≠ 1) : ∃ c ∈ cs, p c = true := by
  by_contra hno
  push_neg at hno
  have : ∀ c ∈ cs, p c = false := by
    intro c hc
    have := hno c hc
    exact Bool.not_eq_true _ ▸ (Bool.eq_false_iff.mpr this)
  rw [splitPred_of_no_sep p cs this] at h
  exact h rfl

theorem claimIPv4_eq (s : String) :
    claimIPv4Literal s =
      (NodeToolExecutor.ipv4Shape s &&
        (splitCh '.' s.toList).all (fun g => decide (decVal g ≤ 255))) := by
  simp only [claimIPv4Literal, NodeToolExecutor.ipv4Shape]
  rw [list_all_and
    (fun g => decide (1 ≤ g.length) && decide (g.length ≤ 3) && g.all Char.isDigit)
    (fun g => decide (decVal g ≤ 255))]
  rw [Bool.and_assoc]

theorem ipv4Shape_not_ipv6 (s : String)
    (h4 : NodeToolExecutor.ipv4Shape s = true) :
    claimIPv6Permissive 3 8 s = false := by
  by_contra h6
  rw [Bool.not_eq_false] at h6
  simp only [NodeToolExecutor.ipv4Shape, Bool.and_eq_true] at h4
  obtain ⟨hlen, -⟩ := h4
  rw [decide_eq_true_eq] at hlen
  have hdot : ∃ c ∈ s.toList, (decide (c = '.')) = true := by
    apply exists_sep_of_splitPred_length
    unfold splitCh at hlen
    rw [hlen]
    decide
  obtain ⟨c, hcs, hc⟩ := hdot
  rw [decide_eq_true_eq] at hc
  subst hc
  simp only [claimIPv6Permissive, Bool.and_eq_true] at h6
  obtain ⟨-, hall6⟩ := h6
  obtain ⟨g, hg, hcg⟩ :=
    mem_splitPred (fun c => decide (c = ':')) s.toList '.' hcs (by decide)
  rw [List.all_eq_true] at hall6
  have hga := hall6 g hg
  rw [Bool.and_eq_true, List.all_eq_true] at hga
  have := hga.2 '.' hcg
  simp [isHexDigitChar] at this

/-- C5 counterexample: the string `a:b` consists of 2 colon-separated
groups of hex digits, so the claim accepts it, but
`_validate_ip_format` (whose IPv6 regex requires 2 to 7 colons, hence 3 to
8 groups) rejects it. -/
theorem c5_counterexample :
    (claimIPv4Literal "a:b" || claimIPv6Permissive 2 8 "a:b") = true ∧
    NodeToolExecutor.validate_ip_format "a:b" = false := by decide

/-- C5 amended: `_validate_ip_format` accepts exactly the strings that
(after the regex `$` anchor's allowance of one trailing newline) are IPv4
literals — four dot-separated groups of 1-3 digits each valued in
`[0, 255]` — or permissive IPv6 literals with 3 to 8 (not 2 to 8)
colon-separated groups of 0-4 hex digits; the spec's five examples
evaluate as stated. -/
theorem c5_ipv4_or_3to8_ipv6 (s : String) :
    (NodeToolExecutor.validate_ip_format s =
      (claimIPv4Literal (reStripNl s) || claimIPv6Permissive 3 8 (reStripNl s))) ∧
    NodeToolExecutor.validate_ip_format "192.168.1.1" = true ∧
    NodeToolExecutor.validate_ip_format "::1" = true ∧
    NodeToolExecutor.validate_ip_format "256.1.1.1" = false ∧
    NodeToolExecutor.validate_ip_format "192.168.1" = false ∧
    NodeToolExecutor.validate_ip_format "not-an-ip" = false := by
  refine ⟨?_, by decide, by decide, by decide, by decide, by decide⟩
  simp only [NodeToolExecutor.validate_ip_format]
  rw [claimIPv4_eq]
  cases h4 : NodeToolExecutor.ipv4Shape (reStripNl s) with
  | true =>
    rw [ipv4Shape_not_ipv6 (reStripNl s) h4]
    simp
  | false =>
    have h6 : claimIPv6Permissive 3 8 (reStripNl s) =
        NodeToolExecutor.ipv6Shape (reStripNl s) := rfl
    rw [h6]
    simp


/-- C7 counterexample: on a node line with 8 tokens the code assigns
token index 6 (`rack1`) to `rack`, while the claim's "last token" is
`extra`. -/
theorem c7_counterexample :
    ((NodeToolExecutor.parse_status_output
        "Datacenter: dc1\nUN 127.0.0.1 100KB 256 100% abc123 rack1 extra").nodes.map
      (fun n => n.rack)) = ["rack1"] ∧
    (pySplitWs "UN 127.0.0.1 100KB 256 100% abc123 rack1 extra").getLastD "" = "extra" ∧
    ("rack1" : String) ≠ "extra" := by decide

/-- C7 amended: a `Datacenter:` line sets the datacenter context; a line
whose first character is `U`/`D`/`N` with at least 6 whitespace-separated
tokens appends a node with `status` = token0[0], `state` = token0[1] (if
present), `address` = token1, `load` = token2, `tokens` = token3,
`owns` = token4, `host_id` = token5 and `rack` = token at index 6 (not the
last token) when more than 6 tokens are present; every other line is
ignored; the spec's one-node scenario parses as stated. -/
theorem c7_status_parser_behaviour :
    (∀ st rawLine line, line = pyStrip rawLine →
      pyBeginsWith "Datacenter:" line = true →
      NodeToolExecutor.statusStep st rawLine =
        (some (pyStrip (String.mk (line.toList.drop 11))), st.2)) ∧
    (∀ st rawLine line parts c rest, line = pyStrip rawLine →
      parts = pySplitWs line →
      pyBeginsWith "Datacenter:" line = false →
      line.toList = c :: rest →
      c ∈ (['U', 'D', 'N'] : List Char) →
      6 ≤ parts.length →
      NodeToolExecutor.statusStep st rawLine =
        (st.1, st.2 ++
          [{ status := (parts.headD "").toList.headD 'A',
             state := match (parts.headD "").toList with
                      | _ :: c2 :: _ => String.mk [c2]
                      | _ => "",
             address := parts.getD 1 "",
             load := parts.getD 2 "",
             tokens := parts.getD 3 "",
             owns := if 4 < parts.length then parts.getD 4 "" else "",
             host_id := if 5 < parts.length then parts.getD 5 "" else "",
             rack := if 6 < parts.length then parts.getD 6 "" else "",
             datacenter := st.1 }])) ∧
    (∀ st rawLine line, line = pyStrip rawLine →
      pyBeginsWith "Datacenter:" line = false →
      (line.toList = [] ∨
        (∀ c rest, line.toList = c :: rest → c ∉ (['U', 'D', 'N'] : List Char)) ∨
        (pySplitWs line).length < 6) →
      NodeToolExecutor.statusStep st rawLine = st) ∧
    NodeToolExecutor.parse_status_output
        "Datacenter: dc1\nUN 127.0.0.1 100KB 256 100% abc123 rack1" =
      ⟨[{ status := 'U', state := "N", address := "127.0.0.1", load := "100KB",
          tokens := "256", owns := "100%", host_id := "abc123", rack := "rack1",
          datacenter := some "dc1" }], 1⟩ := by
  refine ⟨?_, ?_, ?_, by decide⟩
  · intro st rawLine line hline hdc
    subst hline
    simp only [NodeToolExecutor.statusStep]
    rw [hdc]
    simp
  · intro st rawLine line parts c rest hline hparts hdc hcons hc hlen
    subst hline
    subst hparts
    simp only [NodeToolExecutor.statusStep]
    rw [hdc]
    simp only [Bool.false_eq_true, if_false]
    rw [hcons]
    simp only [hc, if_pos, if_true]
    rw [if_pos hlen]
  · intro st rawLine line hline hdc hign
    subst hline
    simp only [NodeToolExecutor.statusStep]
    rw [hdc]
    simp only [Bool.false_eq_true, if_false]
    cases hl : (pyStrip rawLine).toList with
    | nil => rfl
    | cons c rest =>
      dsimp only
      rcases hign with h | h | h
      · rw [hl] at h; cases h
      · have hcn := h c rest hl
        rw [if_neg hcn]
      · by_cases hcm : c ∈ (['U', 'D', 'N'] : List Char)
        · rw [if_pos hcm, if_neg (by omega)]
        · rw [if_neg hcm]

/-- Witness for C7: the datacenter line updates the parser context. -/
theorem c7_witness :
    NodeToolExecutor.statusStep
        ((none, []) : Option String × List StatusNode) "Datacenter: dc9" =
      (some (pyStrip (String.mk ((pyStrip "Datacenter: dc9").toList.drop 11))),
       ([] : List StatusNode)) :=
  c7_status_parser_behaviour.1 ((none, []) : Option String × List StatusNode)
    "Datacenter: dc9" (pyStrip "Datacenter: dc9") rfl (by decide)


theorem catInsert_keys (cat : Catalog) (name : String) (m : CommandMeta)
    (h : name ∈ cat.map Prod.fst) :
    (catInsert cat name m).map Prod.fst = cat.map Prod.fst := by
  unfold catInsert
  rw [if_pos ?hc]
  case hc =>
    rw [List.any_eq_true]
    rw [List.mem_map] at h
    obtain ⟨p, hp, hfst⟩ := h
    exact ⟨p, hp, by rw [beq_iff_eq]; exact hfst⟩
  rw [List.map_map]
  apply List.map_congr_left
  intro p _
  by_cases hp : p.1 = name
  · simp [hp]
  · simp [hp]

theorem applyOp_keys (cat : Catalog) (op : RegistryOp)
    (h : ∀ n ∈ CommandRegistry.SAFE_COMMANDS, n ∈ cat.map Prod.fst) :
    (applyOp cat op).map Prod.fst = cat.map Prod.fst := by
  cases op with
  | validateOp name args => rfl
  | dispatchOp cfg name args outcome elapsed => rfl
  | listOp => rfl
  | registerOp name handler =>
    simp only [applyOp]
    cases handler with
    | nonDict => rfl
    | dict m =>
      simp only [CommandRegistry.register_command]
      by_cases hn : name ∈ CommandRegistry.SAFE_COMMANDS
      · rw [if_pos hn]
        exact catInsert_keys cat name m (h name hn)
      · rw [if_neg hn]

theorem applyOp_id (cat : Catalog) (op : RegistryOp)
    (h : op.isRegister = false) : applyOp cat op = cat := by
  cases op with
  | validateOp name args => rfl
  | dispatchOp cfg name args outcome elapsed => rfl
  | listOp => rfl
  | registerOp name handler => simp [RegistryOp.isRegister] at h

/-- C9 counterexample: registering `status` (an allow-listed name) with a
fresh metadata dict replaces the entry built at construction, so the
catalog does not stay exactly as populated. -/
theorem c9_counterexample :
    applyOps CommandRegistry.initial_commands
      [RegistryOp.registerOp "status" (CommandRegistry.Handler.dict {})] ≠
    CommandRegistry.initial_commands := by decide

/-- C9 amended: across every sequence of public operations the set (and
order) of catalog entry names stays exactly the construction-time one —
registration only accepts allow-listed names, which all already exist —
and any sequence free of registrations leaves the catalog, entries and
attributes included, exactly as constructed; a successful re-registration
may however replace an entry's attributes. -/
theorem c9_catalog_evolution (ops : List RegistryOp) :
    (applyOps CommandRegistry.initial_commands ops).map Prod.fst =
      CommandRegistry.initial_commands.map Prod.fst ∧
    ((∀ op ∈ ops, op.isRegister = false) →
      applyOps CommandRegistry.initial_commands ops =
        CommandRegistry.initial_commands) := by
  constructor
  · have hsub : ∀ n ∈ CommandRegistry.SAFE_COMMANDS,
        n ∈ CommandRegistry.initial_commands.map Prod.fst := by decide
    have key : ∀ (l : List RegistryOp) (cat : Catalog),
        cat.map Prod.fst = CommandRegistry.initial_commands.map Prod.fst →
        (l.foldl applyOp cat).map Prod.fst =
          CommandRegistry.initial_commands.map Prod.fst := by
      intro l
      induction l with
      | nil => intro cat hcat; exact hcat
      | cons op rest ih =>
        intro cat hcat
        simp only [List.foldl_cons]
        apply ih
        rw [applyOp_keys cat op]
        · exact hcat
        · intro n hn
          rw [hcat]
          exact hsub n hn
    exact key ops CommandRegistry.initial_commands rfl
  · intro hno
    have key : ∀ (l : List RegistryOp) (cat : Catalog),
        (∀ op ∈ l, op.isRegister = false) → l.foldl applyOp cat = cat := by
      intro l
      induction l with
      | nil => intro cat _; rfl
      | cons op rest ih =>
        intro cat hl
        simp only [List.foldl_cons]
        rw [applyOp_id cat op (hl op (List.mem_cons_self op rest))]
        exact ih cat (fun o ho => hl o (List.mem_cons_of_mem op ho))
    exact key ops CommandRegistry.initial_commands hno

/-- Witness for C9: a read-only operation sequence leaves the catalog
untouched. -/
theorem c9_witness :
    applyOps CommandRegistry.initial_commands
        [RegistryOp.validateOp "status" [], RegistryOp.listOp] =
      CommandRegistry.initial_commands :=
  (c9_catalog_evolution
    [RegistryOp.validateOp "status" [], RegistryOp.listOp]).2 (by decide)


theorem args_get_cons (p : String × PyVal) (rest : Args) (k : String) :
    Args.get (p :: rest) k = if p.1 == k then some p.2 else Args.get rest k := by
  simp only [Args.get, List.find?]
  cases hp : (p.1 == k) <;> simp [hp]

theorem args_get_append (args : Args) (key k : String) (v : PyVal) :
    Args.get (args ++ [(key, v)]) k =
      match Args.get args k with
      | some w => some w
      | none => if key == k then some v else none := by
  induction args with
  | nil =>
    rw [List.nil_append, args_get_cons]
    cases hk : (key == k) <;> simp [hk, Args.get, List.find?]
  | cons p rest ih =>
    rw [List.cons_append, args_get_cons, args_get_cons]
    cases hp : (p.1 == k) <;> simp [hp, ih]

theorem list_all_congr {α : Type} {l : List α} {f g : α → Bool}
    (h : ∀ a ∈ l, f a = g a) : l.all f = l.all g := by
  induction l with
  | nil => rfl
  | cons x xs ih =>
    simp only [List.all_cons]
    rw [h x (List.mem_cons_self x xs),
      ih (fun a ha => h a (List.mem_cons_of_mem x ha))]

theorem executor_components_empty_host (cfg : ExecutorConfig) (command : String)
    (outcome : ProcOutcome) (elapsed : Rat) :
    (NodeToolExecutor.execute_command cfg command (some "") outcome elapsed).1.success =
      (NodeToolExecutor.execute_command cfg command none outcome elapsed).1.success ∧
    (NodeToolExecutor.execute_command cfg command (some "") outcome elapsed).1.stdout =
      (NodeToolExecutor.execute_command cfg command none outcome elapsed).1.stdout ∧
    (NodeToolExecutor.execute_command cfg command (some "") outcome elapsed).1.stderr =
      (NodeToolExecutor.execute_command cfg command none outcome elapsed).1.stderr ∧
    (NodeToolExecutor.execute_command cfg command (some "") outcome elapsed).1.execution_time =
      (NodeToolExecutor.execute_command cfg command none outcome elapsed).1.execution_time ∧
    (NodeToolExecutor.execute_command cfg command (some "") outcome elapsed).2 =
      (NodeToolExecutor.execute_command cfg command none outcome elapsed).2 := by
  cases outcome <;> exact ⟨rfl, rfl, rfl, rfl, rfl⟩

theorem lookup_initial_no_target_host (name : String) (m : CommandMeta)
    (hm : lookupCmd CommandRegistry.initial_commands name = some m) :
    "target_host" ∉ m.required_args := by
  have hmem : ∀ p ∈ CommandRegistry.initial_commands,
      "target_host" ∉ p.2.required_args := by decide
  unfold lookupCmd at hm
  cases hf : CommandRegistry.initial_commands.find? (fun p => p.1 == name) with
  | none => rw [hf] at hm; cases hm
  | some p =>
    rw [hf] at hm
    have hpm : p.2 = m := by injection hm
    have := hmem p (List.mem_of_find?_eq_some hf)
    rw [hpm] at this
    exact this

theorem validate_empty_host (name : String) (args : Args)
    (h : Args.get args "target_host" = none) :
    CommandRegistry.validate_command CommandRegistry.initial_commands name
      (args ++ [("target_host", PyVal.str "")]) =
    CommandRegistry.validate_command CommandRegistry.initial_commands name args := by
  have hget1 : Args.get (args ++ [("target_host", PyVal.str "")]) "target_host" =
      some (PyVal.str "") := by
    rw [args_get_append, h]
    rfl
  have hget : ∀ a, a ≠ "target_host" →
      Args.get (args ++ [("target_host", PyVal.str "")]) a = Args.get args a := by
    intro a ha
    rw [args_get_append]
    cases hg : Args.get args a with
    | some w => rfl
    | none =>
      have hbeq : ("target_host" == a) = false := by
        rw [beq_eq_false_iff_ne]
        exact fun e => ha e.symm
      simp [hbeq]
  cases hm : lookupCmd CommandRegistry.initial_commands name with
  | none => simp [CommandRegistry.validate_command, hm]
  | some m =>
    have hnth := lookup_initial_no_target_host name m hm
    simp only [CommandRegistry.validate_command, hm]
    have hall : (m.required_args.all fun a =>
        match Args.get (args ++ [("target_host", PyVal.str "")]) a with
        | some v => v.truthy
        | none => false) =
        (m.required_args.all fun a =>
        match Args.get args a with
        | some v => v.truthy
        | none => false) := by
      apply list_all_congr
      intro a haa
      rw [hget a (fun e => hnth (e ▸ haa))]
    rw [hall, hget1, h]
    simp [PyVal.truthy]
/-- C10: binding `target_host` to the empty string behaves exactly like
omitting it: validation agrees, the empty string is never rejected as an
invalid address (`hostRejected` is false), no `-h` option enters the
argument vector, and dispatch agrees on success, stdout, stderr, elapsed
time, executor invocation and process-layer effects. -/
theorem c10_empty_host_like_absent (cfg : ExecutorConfig) (name : String)
    (args : Args) (outcome : ProcOutcome) (elapsed : Rat)
    (h : Args.get args "target_host" = none) :
    CommandRegistry.validate_command CommandRegistry.initial_commands name
        (args ++ [("target_host", PyVal.str "")]) =
      CommandRegistry.validate_command CommandRegistry.initial_commands name args ∧
    NodeToolExecutor.hostRejected (some "") = false ∧
    NodeToolExecutor.build_command cfg name [] (some "") =
      NodeToolExecutor.build_command cfg name [] none ∧
    (CommandRegistry.execute_command cfg CommandRegistry.initial_commands name
        (args ++ [("target_host", PyVal.str "")]) outcome elapsed).1.success =
      (CommandRegistry.execute_command cfg CommandRegistry.initial_commands name
        args outcome elapsed).1.success ∧
    (CommandRegistry.execute_command cfg CommandRegistry.initial_commands name
        (args ++ [("target_host", PyVal.str "")]) outcome elapsed).1.stdout =
      (CommandRegistry.execute_command cfg CommandRegistry.initial_commands name
        args outcome elapsed).1.stdout ∧
    (CommandRegistry.execute_command cfg CommandRegistry.initial_commands name
        (args ++ [("target_host", PyVal.str "")]) outcome elapsed).1.stderr =
      (CommandRegistry.execute_command cfg CommandRegistry.initial_commands name
        args outcome elapsed).1.stderr ∧
    (CommandRegistry.execute_command cfg CommandRegistry.initial_commands name
        (args ++ [("target_host", PyVal.str "")]) outcome elapsed).1.execution_time =
      (CommandRegistry.execute_command cfg CommandRegistry.initial_commands name
        args outcome elapsed).1.execution_time ∧
    (CommandRegistry.execute_command cfg CommandRegistry.initial_commands name
        (args ++ [("target_host", PyVal.str "")]) outcome elapsed).2.1 =
      (CommandRegistry.execute_command cfg CommandRegistry.initial_commands name
        args outcome elapsed).2.1 ∧
    (CommandRegistry.execute_command cfg CommandRegistry.initial_commands name
        (args ++ [("target_host", PyVal.str "")]) outcome elapsed).2.2 =
      (CommandRegistry.execute_command cfg CommandRegistry.initial_commands name
        args outcome elapsed).2.2 := by
  have hg1 : Args.get (args ++ [("target_host", PyVal.str "")]) "target_host" =
      some (PyVal.str "") := by
    rw [args_get_append, h]
    rfl
  refine ⟨validate_empty_host name args h, rfl, rfl, ?_⟩
  simp only [CommandRegistry.execute_command]
  rw [validate_empty_host name args h, hg1, h]
  cases hv : CommandRegistry.validate_command CommandRegistry.initial_commands
      name args with
  | false => exact ⟨rfl, rfl, rfl, rfl, rfl, rfl⟩
  | true =>
    obtain ⟨h1, h2, h3, h4, h5⟩ :=
      executor_components_empty_host cfg name outcome elapsed
    exact ⟨h1, h2, h3, h4, rfl, h5⟩

/-- Witness for C10: `status` with an empty target host validates exactly
like `status` without one. -/
theorem c10_witness :
    CommandRegistry.validate_command CommandRegistry.initial_commands "status"
        ([] ++ [("target_host", PyVal.str "")]) =
      CommandRegistry.validate_command CommandRegistry.initial_commands
        "status" [] :=
  (c10_empty_host_like_absent cfg0 "status" []
    (ProcOutcome.completed 0 "" "") 0 (by decide)).1

/-- Witness for C8 at the disallowed name `rm`. -/
theorem c8_witness :
    raisedError (CommandRegistry.register_command
      CommandRegistry.initial_commands "rm" (CommandRegistry.Handler.dict {})) = true :=
  (c8_register_rejects_non_allowlisted CommandRegistry.initial_commands "rm"
    (CommandRegistry.Handler.dict {}) (by decide)).1

end CassandraOps
